import Mathlib

/-!
# The Metric reconciler (`pkg/reconciler/metric/metric.go`)

A shallow embedding of `reconciler.Reconcile`, `reconciler.reconcileCollection`
and `reconciler.updateStatus`.

The reconciler talks to four collaborators: the lister (Reader), the collector,
the status client and the event recorder.  Their behaviour is a parameter: every
operation is a function of an explicit world state `σ` and returns its result
together with the next world.  Every call the reconciler makes is written, in
order and with its arguments, to a list of `Call`s, so that "is called exactly
once", "is never called" and "is called with these arguments" are statements
about that list.  Logger calls have no influence on control flow or on any
collaborator and are left out.  Go pointers are replaced by values: `DeepCopy`
is the identity and assignment to a field is a record update.
-/

namespace MetricReconciler

/-! ## Errors -/

/-- A Go `error` value.  `status` is an error as the lister or a client hands it
out, with the flag telling whether it is an API "not found" status error;
`withMessage` is what `errors.Wrap` of `github.com/pkg/errors` builds. -/
inductive GoError where
  | status (notFound : Bool) (text : String)
  | withMessage (cause : GoError) (message : String)
  deriving DecidableEq

/-- The method `Error()`: a wrapped error prints as `message: cause`. -/
def GoError.Error : GoError → String
  | .status _ text => text
  | .withMessage cause message => message ++ ": " ++ cause.Error

/-- The function `apierrs.IsNotFound`; `nil` is not a not-found error, and
neither is a wrapped error. -/
def IsNotFound : Option GoError → Bool
  | some (.status notFound _) => notFound
  | _ => false

/-- The function `errors.Wrap`: `nil` stays `nil`, any other error is annotated
with the message. -/
def Wrap : Option GoError → String → Option GoError
  | none, _ => none
  | some err, message => some (.withMessage err message)

/-! ## Keys -/

/-- Go's `strings.Split(s, "/")` on the characters of `s`: the pieces between
the separators, one more piece than there are separators. -/
def splitOnSlash : List Char → List (List Char)
  | [] => [[]]
  | c :: cs =>
    if c = '/' then [] :: splitOnSlash cs
    else
      match splitOnSlash cs with
      | [] => [[c]]
      | p :: ps => (c :: p) :: ps

/-- The function `cache.SplitMetaNamespaceKey` of client-go: one piece is a name
in the empty namespace, two pieces are namespace and name, anything else is an
error (`none`; the error value itself is only logged). -/
def SplitMetaNamespaceKey (key : String) : Option (String × String) :=
  match splitOnSlash key.toList with
  | [name] => some ("", String.mk name)
  | [ns, name] => some (String.mk ns, String.mk name)
  | _ => none

/-! ## The Metric object -/

/-- Modelled from the spec: the condition entry of a Metric's status, a
"structured outcome record (ready/failed + reason/message)"; `Initializing` is
the "known pre-evaluation state".  The type `Condition` is declared outside
`metric.go`. -/
inductive Condition where
  | Initializing
  | Ready
  | Failed (reason message : String)
  deriving DecidableEq

/-- Modelled from the spec: the status of a Metric (`v1alpha1.MetricStatus`,
declared outside `metric.go`): after a pass "exactly one of {Ready,
Failed(reason, message)}", before it the initializing entry; `none` is the
status of an object on which nothing has been recorded yet. -/
structure MetricStatus where
  Conditions : Option Condition
  deriving DecidableEq

/-- Modelled from the spec: `MetricStatus.InitializeConditions`, missing from the
sources: "Initialize status conditions to a known pre-evaluation state". -/
def MetricStatus.InitializeConditions (_ : MetricStatus) : MetricStatus :=
  { Conditions := some Condition.Initializing }

/-- Modelled from the spec: `MetricStatus.MarkMetricReady`, missing from the
sources: "success → mark ready"; the intermediate entry is "overwritten by the
final outcome". -/
def MetricStatus.MarkMetricReady (_ : MetricStatus) : MetricStatus :=
  { Conditions := some Condition.Ready }

/-- Modelled from the spec: `MetricStatus.MarkMetricFailed`, missing from the
sources: "failure → mark failed with a stable reason code" and a message. -/
def MetricStatus.MarkMetricFailed (_ : MetricStatus) (reason message : String) : MetricStatus :=
  { Conditions := some (Condition.Failed reason message) }

/-- Modelled from the spec: the "spec (scrape target description, not elaborated
here)" of a Metric (`v1alpha1.MetricSpec`, declared outside `metric.go`). -/
structure MetricSpec where
  ScrapeTarget : String
  deriving DecidableEq

/-- Modelled from the spec: the declared object (`v1alpha1.Metric`, declared
outside `metric.go`): "identity (namespace, name), spec, status"; `Labels`
stands for the rest of the object's metadata. -/
structure Metric where
  Namespace : String
  Name : String
  Labels : List (String × String)
  Spec : MetricSpec
  Status : MetricStatus
  deriving DecidableEq

/-- The generated method `DeepCopy`: an equal, independent value. -/
def Metric.DeepCopy (m : Metric) : Metric := m

/-- The function `equality.Semantic.DeepEqual` on two statuses: equality of
content, not of reference. -/
def DeepEqual (a b : MetricStatus) : Bool := decide (a = b)

/-! ## Collaborators and the record of calls -/

/-- One call made to a collaborator, with its arguments. -/
inductive Call where
  | Get (ns name : String)
  | CreateOrUpdate (metric : Metric)
  | Delete (ns name : String)
  | UpdateStatus (ns : String) (metric : Metric)
  | Event (object : Metric) (eventtype reason message : String)
  deriving DecidableEq

/-- The constant `corev1.EventTypeNormal`. -/
def EventTypeNormal : String := "Normal"

/-- The constant `corev1.EventTypeWarning`. -/
def EventTypeWarning : String := "Warning"

/-- The struct `reconciler` with what it reaches through its fields:
`Get ns name` is `r.metricLister.Metrics(ns).Get(name)`, `CreateOrUpdate` and
`Delete` are the methods of `r.collector`, `UpdateStatus ns m` is
`r.ServingClientSet.AutoscalingV1alpha1().Metrics(ns).UpdateStatus(m)` (the
object it also returns is discarded by the caller).  `SetDefaults` is the
method `Metric.SetDefaults`, whose body is outside `metric.go`. -/
structure reconciler (σ : Type) where
  Get : String → String → σ → Except GoError Metric × σ
  CreateOrUpdate : Metric → σ → Option GoError × σ
  Delete : String → String → σ → Option GoError × σ
  UpdateStatus : String → Metric → σ → Option GoError × σ
  SetDefaults : Metric → Metric

/-- What a step hands back: its Go return value, the world after it and the
calls it made, in order. -/
structure Ret (α σ : Type) where
  val : α
  world : σ
  calls : List Call

/-- What one run of `Reconcile` hands back: the returned error (`none` is
`nil`), the local variable `metric` as it stands when the function returns
(`none` when the run ends before the copy is taken), the world after the run
and the calls made, in order. -/
structure Pass (σ : Type) where
  err : Option GoError
  metric : Option Metric
  world : σ
  calls : List Call

/-! ## The reconciler -/

/-- The method `reconciler.reconcileCollection` (lines 94-102).  The value is
the returned error together with the metric as the method leaves it. -/
def reconcileCollection {σ : Type} (r : reconciler σ) (metric : Metric) (w : σ) :
    Ret (Option GoError × Metric) σ :=
  match r.CreateOrUpdate metric w with
  | (some err, w1) =>
    { val := (Wrap (some err) "failed to initiate or update scraping",
              { metric with Status := metric.Status.MarkMetricFailed "CollectionFailed"
                                        "Failed to reconcile metric collection" })
      world := w1
      calls := [Call.CreateOrUpdate metric] }
  | (none, w1) =>
    { val := (none, metric), world := w1, calls := [Call.CreateOrUpdate metric] }

/-- The method `reconciler.updateStatus` (lines 104-118). -/
def updateStatus {σ : Type} (r : reconciler σ) (m : Metric) (w : σ) : Ret (Option GoError) σ :=
  match r.Get m.Namespace m.Name w with
  | (.error err, w1) =>
    { val := some err, world := w1, calls := [Call.Get m.Namespace m.Name] }
  | (.ok ex, w1) =>
    if DeepEqual ex.Status m.Status then
      { val := none, world := w1, calls := [Call.Get m.Namespace m.Name] }
    else
      let ex := ex.DeepCopy
      let ex := { ex with Status := m.Status }
      match r.UpdateStatus ex.Namespace ex w1 with
      | (err, w2) =>
        { val := err, world := w2
          calls := [Call.Get m.Namespace m.Name, Call.UpdateStatus ex.Namespace ex] }

/-- Lines 69-72 of `Reconcile`: the copy of the lister's object, defaulted and
with its conditions initialised. -/
def workingCopy {σ : Type} (r : reconciler σ) (original : Metric) : Metric :=
  let metric := original.DeepCopy
  let metric := r.SetDefaults metric
  { metric with Status := metric.Status.InitializeConditions }

/-- Lines 69-79 of `Reconcile`: the working copy is made (`workingCopy`), the
collection is reconciled, and then either the
"InternalError" event is recorded or the copy is marked ready.  The value is
the variable `err` and the variable `metric` at line 80. -/
def computeStatus {σ : Type} (r : reconciler σ) (original : Metric) (w : σ) :
    Ret (Option GoError × Metric) σ :=
  let metric := workingCopy r original
  let c := reconcileCollection r metric w
  match c.val with
  | (some err, metric) =>
    { val := (some err, metric), world := c.world
      calls := c.calls ++ [Call.Event metric EventTypeWarning "InternalError" err.Error] }
  | (none, metric) =>
    { val := (none, { metric with Status := metric.Status.MarkMetricReady }), world := c.world
      calls := c.calls }

/-- The method `reconciler.Reconcile` (lines 52-92). -/
def Reconcile {σ : Type} (r : reconciler σ) (key : String) (w : σ) : Pass σ :=
  match SplitMetaNamespaceKey key with
  | none => { err := none, metric := none, world := w, calls := [] }
  | some (ns, name) =>
    match r.Get ns name w with
    | (.error err, w1) =>
      if IsNotFound (some err) then
        match r.Delete ns name w1 with
        | (dErr, w2) =>
          { err := dErr, metric := none, world := w2
            calls := [Call.Get ns name, Call.Delete ns name] }
      else
        { err := Wrap (some err) ("failed to fetch metric " ++ key), metric := none, world := w1
          calls := [Call.Get ns name] }
    | (.ok original, w1) =>
      let c := computeStatus r original w1
      let err := c.val.1
      let metric := c.val.2
      if !DeepEqual original.Status metric.Status then
        let u := updateStatus r metric c.world
        match u.val with
        | some uErr =>
          { err := some uErr, metric := some metric, world := u.world
            calls := Call.Get ns name :: (c.calls ++ u.calls ++
              [Call.Event metric EventTypeWarning "UpdateFailed"
                ("Failed to update metric status: " ++ uErr.Error)]) }
        | none =>
          { err := err, metric := some metric, world := u.world
            calls := Call.Get ns name :: (c.calls ++ u.calls ++
              [Call.Event metric EventTypeNormal "Updated"
                ("Successfully updated metric status " ++ key)]) }
      else
        { err := err, metric := some metric, world := c.world
          calls := Call.Get ns name :: c.calls }

/-! ## Reading the record of calls -/

/-- Is the call a lookup in the lister? -/
def Call.isGet : Call → Bool
  | .Get _ _ => true
  | _ => false

/-- Is the call a `Collector.Delete`? -/
def Call.isDelete : Call → Bool
  | .Delete _ _ => true
  | _ => false

/-- Is the call an `UpdateStatus` write? -/
def Call.isUpdateStatus : Call → Bool
  | .UpdateStatus _ _ => true
  | _ => false

/-- Is the call an event with the given reason? -/
def Call.isEvent (reason : String) : Call → Bool
  | .Event _ _ r _ => r == reason
  | _ => false

/-- The namespace and the name a call is addressed to, for the calls that take
them: the lister lookup, `Collector.Delete` and the `UpdateStatus` write (whose
name is that of the object written). -/
def Call.target : Call → Option (String × String)
  | .Get ns name => some (ns, name)
  | .Delete ns name => some (ns, name)
  | .UpdateStatus ns metric => some (ns, metric.Name)
  | _ => none

/-! ## Two passes over one stored object -/

/-- A scripted world: the answers the lister gives to the successive lookups
(not found once they are used up), the fixed answers of the collector, and the
answers to the successive status writes (success once they are used up). -/
structure Script where
  gets : List (Except GoError Metric)
  collect : Option GoError
  delete : Option GoError
  writes : List (Option GoError)

/-- The reconciler wired to a scripted world, with a defaulting that changes
nothing. -/
def scripted : reconciler Script where
  Get := fun _ _ w =>
    match w.gets with
    | [] => (.error (.status true "metric not found"), w)
    | g :: rest => (g, { w with gets := rest })
  CreateOrUpdate := fun _ w => (w.collect, w)
  Delete := fun _ _ w => (w.delete, w)
  UpdateStatus := fun _ _ w =>
    match w.writes with
    | [] => (none, w)
    | e :: rest => (e, { w with writes := rest })
  SetDefaults := fun m => m

/-- A world holding one live Metric, `ns/name`, of which only the status ever
changes, and the answers to the successive status writes (success once they are
used up). -/
structure Cluster where
  status : MetricStatus
  writes : List (Option GoError)

/-- The live object of a `Cluster`. -/
def Cluster.object (w : Cluster) : Metric :=
  { Namespace := "ns", Name := "name", Labels := [], Spec := { ScrapeTarget := "svc" },
    Status := w.status }

/-- The reconciler wired to a `Cluster`: the lister serves the live object
under its own key, the collector always answers `outcome`, a successful status
write stores the written status. -/
def cluster (outcome : Option GoError) : reconciler Cluster where
  Get := fun ns name w =>
    if ns = "ns" ∧ name = "name" then (.ok w.object, w)
    else (.error (.status true "metric not found"), w)
  CreateOrUpdate := fun _ w => (outcome, w)
  Delete := fun _ _ w => (none, w)
  UpdateStatus := fun _ m w =>
    match w.writes with
    | [] => (none, { status := m.Status, writes := [] })
    | none :: rest => (none, { status := m.Status, writes := rest })
    | some e :: rest => (some e, { w with writes := rest })
  SetDefaults := fun m => m

/-! ## Objects and errors used as concrete inputs -/

/-- A Metric `ns/name` on which no status has been recorded yet. -/
def freshMetric : Metric :=
  { Namespace := "ns", Name := "name", Labels := [("app", "web")],
    Spec := { ScrapeTarget := "svc" }, Status := { Conditions := none } }

/-- The same Metric as the store holds it a moment later: relabelled, with
another scrape target, and already marked failed. -/
def staleMetric : Metric :=
  { Namespace := "ns", Name := "name", Labels := [("app", "api")],
    Spec := { ScrapeTarget := "svc-v2" },
    Status := { Conditions := some (Condition.Failed "CollectionFailed"
      "Failed to reconcile metric collection") } }

/-- The working copy of `freshMetric` once it has been marked ready. -/
def readyMetric : Metric :=
  { freshMetric with Status := { Conditions := some Condition.Ready } }

/-- The working copy of `freshMetric` once it has been marked failed. -/
def failedMetric : Metric :=
  { freshMetric with
    Status := { Conditions := some (Condition.Failed "CollectionFailed"
      "Failed to reconcile metric collection") } }

/-- An error of the API server that is not a not-found error. -/
def serverTimeout : GoError := GoError.status false "etcd: request timed out"

/-- The not-found error of the API machinery. -/
def notFoundError : GoError := GoError.status true "metric.autoscaling.internal.knative.dev \"name\" not found"

/-! ## Facts about keys -/

/-- Splitting never gives an empty list of pieces. -/
theorem splitOnSlash_ne_nil (l : List Char) : splitOnSlash l ≠ [] := by
  cases l with
  | nil => simp [splitOnSlash]
  | cons c cs =>
    unfold splitOnSlash
    split
    · simp
    · split <;> simp

/-- A text without separator is one piece. -/
theorem splitOnSlash_of_no_slash (l : List Char) (h : '/' ∉ l) : splitOnSlash l = [l] := by
  induction l with
  | nil => rfl
  | cons c cs ih =>
    have hc : c ≠ '/' := fun hEq => h (by simp [hEq])
    have hcs : '/' ∉ cs := fun hMem => h (List.mem_cons_of_mem _ hMem)
    simp [splitOnSlash, hc, ih hcs]

/-- The first piece ends at the first separator. -/
theorem splitOnSlash_append (a b : List Char) (h : '/' ∉ a) :
    splitOnSlash (a ++ '/' :: b) = a :: splitOnSlash b := by
  induction a with
  | nil => simp [splitOnSlash]
  | cons c cs ih =>
    have hc : c ≠ '/' := fun hEq => h (by simp [hEq])
    have hcs : '/' ∉ cs := fun hMem => h (List.mem_cons_of_mem _ hMem)
    simp [splitOnSlash, hc, ih hcs]

/-- There is one more piece than there are separators. -/
theorem splitOnSlash_length (l : List Char) : (splitOnSlash l).length = l.count '/' + 1 := by
  induction l with
  | nil => rfl
  | cons c cs ih =>
    by_cases hc : c = '/'
    · subst hc
      simp [splitOnSlash, ih]
    · have hne : splitOnSlash cs ≠ [] := splitOnSlash_ne_nil cs
      rcases hs : splitOnSlash cs with _ | ⟨p, ps⟩
      · exact absurd hs hne
      · rw [hs] at ih
        simp only [splitOnSlash, hc, if_false, hs, List.length_cons] at ih ⊢
        rw [List.count_cons_of_ne (fun hEq => hc hEq.symm)]
        exact ih

/-- A key "ns/name", neither part holding a separator, splits into its parts. -/
theorem SplitMetaNamespaceKey_of_form (ns name : String)
    (hns : '/' ∉ ns.toList) (hname : '/' ∉ name.toList) :
    SplitMetaNamespaceKey (ns ++ "/" ++ name) = some (ns, name) := by
  have hl : (ns ++ "/" ++ name).toList = ns.toList ++ '/' :: name.toList := by
    simp [String.toList]
  unfold SplitMetaNamespaceKey
  rw [hl, splitOnSlash_append _ _ hns, splitOnSlash_of_no_slash _ hname]
  rfl

/-- A key with two separators or more does not split. -/
theorem SplitMetaNamespaceKey_of_many (key : String) (h : 2 ≤ key.toList.count '/') :
    SplitMetaNamespaceKey key = none := by
  have hlen := splitOnSlash_length key.toList
  unfold SplitMetaNamespaceKey
  rcases hs : splitOnSlash key.toList with _ | ⟨a, _ | ⟨b, _ | ⟨c, rest⟩⟩⟩
  · rfl
  · rw [hs] at hlen
    simp only [List.length_cons, List.length_nil] at hlen
    omega
  · rw [hs] at hlen
    simp only [List.length_cons, List.length_nil] at hlen
    omega
  · rfl

/-! ## Facts about `updateStatus` -/

/-- `updateStatus` when the re-read fails. -/
theorem updateStatus_reread_error {σ : Type} (r : reconciler σ) (m : Metric) (w : σ) (e : GoError)
    (h : (r.Get m.Namespace m.Name w).1 = Except.error e) :
    updateStatus r m w =
      { val := some e, world := (r.Get m.Namespace m.Name w).2,
        calls := [Call.Get m.Namespace m.Name] } := by
  rcases hg : r.Get m.Namespace m.Name w with ⟨res, w1⟩
  rw [hg] at h
  simp only at h
  subst h
  simp [updateStatus, hg]

/-- `updateStatus` when the re-read object already has the desired status. -/
theorem updateStatus_reread_equal {σ : Type} (r : reconciler σ) (m ex : Metric) (w : σ)
    (h : (r.Get m.Namespace m.Name w).1 = Except.ok ex)
    (heq : DeepEqual ex.Status m.Status = true) :
    updateStatus r m w =
      { val := none, world := (r.Get m.Namespace m.Name w).2,
        calls := [Call.Get m.Namespace m.Name] } := by
  rcases hg : r.Get m.Namespace m.Name w with ⟨res, w1⟩
  rw [hg] at h
  simp only at h
  subst h
  simp [updateStatus, hg, heq]

/-- `updateStatus` when the re-read object has another status. -/
theorem updateStatus_reread_differs {σ : Type} (r : reconciler σ) (m ex : Metric) (w : σ)
    (h : (r.Get m.Namespace m.Name w).1 = Except.ok ex)
    (hne : DeepEqual ex.Status m.Status = false) :
    updateStatus r m w =
      { val := (r.UpdateStatus ex.Namespace { ex with Status := m.Status }
                  (r.Get m.Namespace m.Name w).2).1,
        world := (r.UpdateStatus ex.Namespace { ex with Status := m.Status }
                  (r.Get m.Namespace m.Name w).2).2,
        calls := [Call.Get m.Namespace m.Name,
                  Call.UpdateStatus ex.Namespace { ex with Status := m.Status }] } := by
  rcases hg : r.Get m.Namespace m.Name w with ⟨res, w1⟩
  rw [hg] at h
  simp only at h
  subst h
  simp [updateStatus, hg, hne, Metric.DeepCopy]

/-- Among the calls of `updateStatus` there is no event of any reason. -/
theorem updateStatus_calls_filter {σ : Type} (r : reconciler σ) (m : Metric) (w : σ)
    (reason : String) :
    (updateStatus r m w).calls.filter (Call.isEvent reason) = [] := by
  rcases hg : (r.Get m.Namespace m.Name w).1 with e | ex
  · rw [updateStatus_reread_error r m w e hg]; rfl
  · cases heq : DeepEqual ex.Status m.Status
    · rw [updateStatus_reread_differs r m ex w hg heq]; rfl
    · rw [updateStatus_reread_equal r m ex w hg heq]; rfl

/-- The calls of `updateStatus` are addressed to the namespace and name of the
desired object, when the lister returns objects under their own identity. -/
theorem updateStatus_targets {σ : Type} (r : reconciler σ) (m : Metric) (w : σ)
    (hReader : ∀ (ns name : String) (w0 w1 : σ) (o : Metric),
      r.Get ns name w0 = (Except.ok o, w1) → o.Namespace = ns ∧ o.Name = name) :
    ∀ c ∈ (updateStatus r m w).calls, ∀ t, c.target = some t → t = (m.Namespace, m.Name) := by
  rcases hg : r.Get m.Namespace m.Name w with ⟨res, w1⟩
  have hfst : (r.Get m.Namespace m.Name w).1 = res := by rw [hg]
  cases res with
  | error e =>
    rw [updateStatus_reread_error r m w e hfst]
    intro c hc t ht
    simp only [List.mem_singleton] at hc
    subst hc
    simpa [Call.target] using ht.symm
  | ok ex =>
    have hid := hReader _ _ _ _ _ hg
    cases heq : DeepEqual ex.Status m.Status
    · rw [updateStatus_reread_differs r m ex w hfst heq]
      intro c hc t ht
      simp only [List.mem_cons, List.mem_singleton, List.mem_nil_iff, or_false] at hc
      rcases hc with hc | hc
      · subst hc
        simpa [Call.target] using ht.symm
      · subst hc
        simp only [Call.target, Option.some.injEq] at ht
        rw [← ht, hid.1, hid.2]
    · rw [updateStatus_reread_equal r m ex w hfst heq]
      intro c hc t ht
      simp only [List.mem_singleton] at hc
      subst hc
      simpa [Call.target] using ht.symm

/-! ## Facts about lines 69-79 of `Reconcile` -/

/-- `computeStatus` when `CreateOrUpdate` fails. -/
theorem computeStatus_failure {σ : Type} (r : reconciler σ) (original : Metric) (w : σ)
    (e : GoError) (h : (r.CreateOrUpdate (workingCopy r original) w).1 = some e) :
    computeStatus r original w =
      { val := (some (GoError.withMessage e "failed to initiate or update scraping"),
                { workingCopy r original with
                  Status := (workingCopy r original).Status.MarkMetricFailed "CollectionFailed"
                    "Failed to reconcile metric collection" }),
        world := (r.CreateOrUpdate (workingCopy r original) w).2,
        calls := [Call.CreateOrUpdate (workingCopy r original),
                  Call.Event
                    { workingCopy r original with
                      Status := (workingCopy r original).Status.MarkMetricFailed "CollectionFailed"
                        "Failed to reconcile metric collection" }
                    EventTypeWarning "InternalError"
                    ("failed to initiate or update scraping: " ++ e.Error)] } := by
  rcases hc : r.CreateOrUpdate (workingCopy r original) w with ⟨res, w1⟩
  rw [hc] at h
  simp only at h
  subst h
  simp [computeStatus, reconcileCollection, hc, Wrap, GoError.Error]

/-- `computeStatus` when `CreateOrUpdate` succeeds. -/
theorem computeStatus_success {σ : Type} (r : reconciler σ) (original : Metric) (w : σ)
    (h : (r.CreateOrUpdate (workingCopy r original) w).1 = none) :
    computeStatus r original w =
      { val := (none, { workingCopy r original with
                        Status := (workingCopy r original).Status.MarkMetricReady }),
        world := (r.CreateOrUpdate (workingCopy r original) w).2,
        calls := [Call.CreateOrUpdate (workingCopy r original)] } := by
  rcases hc : r.CreateOrUpdate (workingCopy r original) w with ⟨res, w1⟩
  rw [hc] at h
  simp only at h
  subst h
  simp [computeStatus, reconcileCollection, hc]

/-- The error `computeStatus` leaves in `err` is the one `reconcileCollection`
returned. -/
theorem computeStatus_err {σ : Type} (r : reconciler σ) (original : Metric) (w : σ) :
    (computeStatus r original w).val.1 =
      (reconcileCollection r (workingCopy r original) w).val.1 := by
  rcases hc : r.CreateOrUpdate (workingCopy r original) w with ⟨res, w1⟩
  cases res <;> simp [computeStatus, reconcileCollection, hc, Wrap]

/-- The calls of `computeStatus`: one `CreateOrUpdate`, followed by the
"InternalError" event when it failed. -/
theorem computeStatus_calls {σ : Type} (r : reconciler σ) (original : Metric) (w : σ) :
    (computeStatus r original w).calls =
      Call.CreateOrUpdate (workingCopy r original) ::
        (match (r.CreateOrUpdate (workingCopy r original) w).1 with
         | none => []
         | some e =>
           [Call.Event
              { workingCopy r original with
                Status := (workingCopy r original).Status.MarkMetricFailed "CollectionFailed"
                  "Failed to reconcile metric collection" }
              EventTypeWarning "InternalError"
              ("failed to initiate or update scraping: " ++ e.Error)]) := by
  rcases hc : (r.CreateOrUpdate (workingCopy r original) w).1 with _ | e
  · rw [computeStatus_success r original w hc]
  · rw [computeStatus_failure r original w e hc]

/-- Among the calls of `computeStatus` there is no lister lookup, no
`UpdateStatus` and no event other than "InternalError". -/
theorem computeStatus_calls_filter {σ : Type} (r : reconciler σ) (original : Metric) (w : σ) :
    (computeStatus r original w).calls.filter Call.isGet = [] ∧
      (computeStatus r original w).calls.filter Call.isUpdateStatus = [] ∧
      (computeStatus r original w).calls.filter (Call.isEvent "Updated") = [] ∧
      (computeStatus r original w).calls.filter (Call.isEvent "UpdateFailed") = [] := by
  rw [computeStatus_calls]
  cases (r.CreateOrUpdate (workingCopy r original) w).1 <;>
    simp [List.filter, Call.isGet, Call.isUpdateStatus, Call.isEvent]

/-- The working copy that `computeStatus` leaves has the namespace and the name
that defaulting gave it. -/
theorem computeStatus_identity {σ : Type} (r : reconciler σ) (original : Metric) (w : σ) :
    (computeStatus r original w).val.2.Namespace = (r.SetDefaults original).Namespace ∧
      (computeStatus r original w).val.2.Name = (r.SetDefaults original).Name := by
  rcases hc : (r.CreateOrUpdate (workingCopy r original) w).1 with _ | e
  · rw [computeStatus_success r original w hc]
    exact ⟨rfl, rfl⟩
  · rw [computeStatus_failure r original w e hc]
    exact ⟨rfl, rfl⟩

/-- No call of `computeStatus` takes a namespace and a name. -/
theorem computeStatus_targets {σ : Type} (r : reconciler σ) (original : Metric) (w : σ) :
    ∀ c ∈ (computeStatus r original w).calls, c.target = none := by
  rw [computeStatus_calls]
  cases (r.CreateOrUpdate (workingCopy r original) w).1 <;> simp [Call.target]

/-- `Reconcile` on a key that splits, when the lister returns an object. -/
theorem Reconcile_found {σ : Type} (r : reconciler σ) (key ns name : String) (w w1 : σ)
    (original : Metric)
    (hkey : SplitMetaNamespaceKey key = some (ns, name))
    (hget : r.Get ns name w = (Except.ok original, w1)) :
    Reconcile r key w =
      (if !DeepEqual original.Status (computeStatus r original w1).val.2.Status then
         match (updateStatus r (computeStatus r original w1).val.2
                  (computeStatus r original w1).world).val with
         | some uErr =>
           { err := some uErr, metric := some (computeStatus r original w1).val.2
             world := (updateStatus r (computeStatus r original w1).val.2
                        (computeStatus r original w1).world).world
             calls := Call.Get ns name :: ((computeStatus r original w1).calls ++
               (updateStatus r (computeStatus r original w1).val.2
                  (computeStatus r original w1).world).calls ++
               [Call.Event (computeStatus r original w1).val.2 EventTypeWarning "UpdateFailed"
                 ("Failed to update metric status: " ++ uErr.Error)]) }
         | none =>
           { err := (computeStatus r original w1).val.1
             metric := some (computeStatus r original w1).val.2
             world := (updateStatus r (computeStatus r original w1).val.2
                        (computeStatus r original w1).world).world
             calls := Call.Get ns name :: ((computeStatus r original w1).calls ++
               (updateStatus r (computeStatus r original w1).val.2
                  (computeStatus r original w1).world).calls ++
               [Call.Event (computeStatus r original w1).val.2 EventTypeNormal "Updated"
                 ("Successfully updated metric status " ++ key)]) }
       else
         { err := (computeStatus r original w1).val.1
           metric := some (computeStatus r original w1).val.2
           world := (computeStatus r original w1).world
           calls := Call.Get ns name :: (computeStatus r original w1).calls }) := by
  simp only [Reconcile, hkey, hget]

/-- In a `Cluster` the lister returns objects under their own identity. -/
theorem cluster_reader (outcome : Option GoError) (ns0 name0 : String) (w0 w1 : Cluster)
    (o : Metric) (h : (cluster outcome).Get ns0 name0 w0 = (Except.ok o, w1)) :
    o.Namespace = ns0 ∧ o.Name = name0 := by
  by_cases hk : ns0 = "ns" ∧ name0 = "name"
  · simp only [cluster, hk, and_self, if_true, Prod.mk.injEq, Except.ok.injEq] at h
    rw [← h.1, hk.1, hk.2]
    exact ⟨rfl, rfl⟩
  · simp [cluster, hk] at h

/-- C1: for every key that splits and every object the lister returns for it,
when `CreateOrUpdate` returns an error `e`: (i) the working copy ends the pass
with the status Failed, reason "CollectionFailed"; (ii) exactly one
"InternalError" event is recorded, a warning whose message is the text of the
wrapped error; (iii) `Reconcile` returns a non-nil error, and unless the status
commit failed (an "UpdateFailed" event was recorded) that error is the wrapped
error of the collection step.  The world is arbitrary, so this holds whether
the status is unchanged, is written, or the write (or the re-read before it)
fails. -/
theorem Reconcile_collection_failure {σ : Type} (r : reconciler σ) (key ns name : String)
    (w w1 : σ) (original : Metric) (e : GoError)
    (hkey : SplitMetaNamespaceKey key = some (ns, name))
    (hget : r.Get ns name w = (Except.ok original, w1))
    (hcoll : (r.CreateOrUpdate (workingCopy r original) w1).1 = some e) :
    (Reconcile r key w).metric.map Metric.Status =
        some { Conditions := some (Condition.Failed "CollectionFailed"
                 "Failed to reconcile metric collection") } ∧
      (Reconcile r key w).calls.filter (Call.isEvent "InternalError") =
        [Call.Event
           { workingCopy r original with
             Status := { Conditions := some (Condition.Failed "CollectionFailed"
               "Failed to reconcile metric collection") } }
           EventTypeWarning "InternalError"
           ("failed to initiate or update scraping: " ++ e.Error)] ∧
      (Reconcile r key w).err ≠ none ∧
      ((Reconcile r key w).calls.filter (Call.isEvent "UpdateFailed") = [] →
        (Reconcile r key w).err =
          some (GoError.withMessage e "failed to initiate or update scraping")) := by
  have hu := fun m w2 => updateStatus_calls_filter r m w2 "InternalError"
  rw [Reconcile_found r key ns name w w1 original hkey hget,
    computeStatus_failure r original w1 e hcoll]
  split
  · split
    · refine ⟨rfl, ?_, by simp, ?_⟩
      · simp [List.filter_cons, List.filter_append, Call.isEvent, hu,
          MetricStatus.MarkMetricFailed]
      · intro hnone
        simp [List.filter_cons, List.filter_append, Call.isEvent] at hnone
    · refine ⟨rfl, ?_, by simp, fun _ => rfl⟩
      simp [List.filter_cons, List.filter_append, Call.isEvent, hu,
        MetricStatus.MarkMetricFailed]
  · refine ⟨rfl, ?_, by simp, fun _ => rfl⟩
    simp [List.filter_cons, Call.isEvent, MetricStatus.MarkMetricFailed]

/-- C1, at a fresh object whose collection fails while the status write goes
through: the failure is recorded in the status, announced once, and returned. -/
theorem Reconcile_collection_failure_witness :
    (Reconcile scripted "ns/name"
        (Script.mk [Except.ok freshMetric, Except.ok freshMetric] (some serverTimeout) none
          [])).metric.map Metric.Status
        = some { Conditions := some (Condition.Failed "CollectionFailed"
                   "Failed to reconcile metric collection") } ∧
      (Reconcile scripted "ns/name"
        (Script.mk [Except.ok freshMetric, Except.ok freshMetric] (some serverTimeout) none
          [])).calls.filter (Call.isEvent "InternalError")
        = [Call.Event failedMetric EventTypeWarning "InternalError"
            "failed to initiate or update scraping: etcd: request timed out"] ∧
      (Reconcile scripted "ns/name"
        (Script.mk [Except.ok freshMetric, Except.ok freshMetric] (some serverTimeout) none
          [])).err ≠ none ∧
      (Reconcile scripted "ns/name"
        (Script.mk [Except.ok freshMetric, Except.ok freshMetric] (some serverTimeout) none
          [])).err
        = some (GoError.withMessage serverTimeout "failed to initiate or update scraping") :=
  have h := Reconcile_collection_failure scripted "ns/name" "ns" "name"
    (Script.mk [Except.ok freshMetric, Except.ok freshMetric] (some serverTimeout) none [])
    (Script.mk [Except.ok freshMetric] (some serverTimeout) none [])
    freshMetric serverTimeout (by decide) rfl rfl
  ⟨h.1, h.2.1, h.2.2.1, h.2.2.2 (by decide)⟩

/-! ## Deletion (C2) -/

/-- C2: for every key that splits into (ns, name), when the lister answers
not-found, `Reconcile` makes the lookup and then exactly one call
`Delete ns name` and nothing else (no `CreateOrUpdate`, no second lookup, no
`UpdateStatus`, no event), and it returns exactly what `Delete` returned. -/
theorem Reconcile_not_found_deletes {σ : Type} (r : reconciler σ) (key ns name : String)
    (w : σ) (e : GoError)
    (hkey : SplitMetaNamespaceKey key = some (ns, name))
    (hget : (r.Get ns name w).1 = Except.error e)
    (hnf : IsNotFound (some e) = true) :
    (Reconcile r key w).err = (r.Delete ns name (r.Get ns name w).2).1 ∧
      (Reconcile r key w).calls = [Call.Get ns name, Call.Delete ns name] ∧
      (Reconcile r key w).world = (r.Delete ns name (r.Get ns name w).2).2 := by
  rcases hg : r.Get ns name w with ⟨res, w1⟩
  rw [hg] at hget
  simp only at hget
  subst hget
  rcases hd : r.Delete ns name w1 with ⟨dErr, w2⟩
  simp [Reconcile, hkey, hg, hnf, hd]

/-- C2, at the key "ns/name" with a lister that knows no object and a collector
whose `Delete` fails. -/
theorem Reconcile_not_found_deletes_witness :
    SplitMetaNamespaceKey "ns/name" = some ("ns", "name") ∧
      IsNotFound (some (GoError.status true "metric not found")) = true ∧
      (Reconcile scripted "ns/name" (Script.mk [] none (some serverTimeout) [])).err
        = some serverTimeout ∧
      (Reconcile scripted "ns/name" (Script.mk [] none (some serverTimeout) [])).calls
        = [Call.Get "ns" "name", Call.Delete "ns" "name"] :=
  have h := Reconcile_not_found_deletes scripted "ns/name" "ns" "name"
    (Script.mk [] none (some serverTimeout) []) (GoError.status true "metric not found")
    (by decide) rfl rfl
  ⟨by decide, rfl, h.1, h.2.1⟩

/-! ## Two passes in a row (C3) -/

/-- C4: for every found object, when the status that the pass computes (after
the defaulting, initialising the conditions and marking ready or failed) is
deep-equal to the status of the object as read, `Reconcile` returns the result
of the collection step as it is, the lookup is its only read (no re-read), and
it makes no `UpdateStatus` call and records no "Updated" and no "UpdateFailed"
event: its calls are the lookup followed by those of the collection step. -/
theorem Reconcile_status_unchanged {σ : Type} (r : reconciler σ) (key ns name : String)
    (w w1 : σ) (original : Metric)
    (hkey : SplitMetaNamespaceKey key = some (ns, name))
    (hget : r.Get ns name w = (Except.ok original, w1))
    (heq : DeepEqual original.Status (computeStatus r original w1).val.2.Status = true) :
    (Reconcile r key w).err = (reconcileCollection r (workingCopy r original) w1).val.1 ∧
      (Reconcile r key w).calls = Call.Get ns name :: (computeStatus r original w1).calls ∧
      (Reconcile r key w).calls.filter Call.isGet = [Call.Get ns name] ∧
      (Reconcile r key w).calls.filter Call.isUpdateStatus = [] ∧
      (Reconcile r key w).calls.filter (Call.isEvent "Updated") = [] ∧
      (Reconcile r key w).calls.filter (Call.isEvent "UpdateFailed") = [] := by
  have hc := computeStatus_calls_filter r original w1
  rw [Reconcile_found r key ns name w w1 original hkey hget]
  simp only [heq, Bool.not_true, Bool.false_eq_true, if_false]
  refine ⟨computeStatus_err r original _, trivial, ?_, ?_, ?_, ?_⟩
  · simp [List.filter, Call.isGet, hc.1]
  · simp [List.filter, Call.isUpdateStatus, hc.2.1]
  · simp [List.filter, Call.isEvent, hc.2.2.1]
  · simp [List.filter, Call.isEvent, hc.2.2.2]

/-- C4, at an object already marked ready whose collection succeeds again: the
pass is the lookup and the `CreateOrUpdate`, and returns nil. -/
theorem Reconcile_status_unchanged_witness :
    DeepEqual readyMetric.Status
        (computeStatus scripted readyMetric (Script.mk [] none none [])).val.2.Status = true ∧
      (Reconcile scripted "ns/name" (Script.mk [Except.ok readyMetric] none none [])).err = none ∧
      (Reconcile scripted "ns/name" (Script.mk [Except.ok readyMetric] none none [])).calls =
        [Call.Get "ns" "name",
         Call.CreateOrUpdate { readyMetric with Status := { Conditions := some Condition.Initializing } }] ∧
      (Reconcile scripted "ns/name"
        (Script.mk [Except.ok readyMetric] none none [])).calls.filter Call.isUpdateStatus = [] :=
  have h := Reconcile_status_unchanged scripted "ns/name" "ns" "name"
    (Script.mk [Except.ok readyMetric] none none []) (Script.mk [] none none []) readyMetric
    (by decide) rfl (by decide)
  ⟨by decide, h.1, h.2.1, h.2.2.2.1⟩

/-! ## Malformed keys (C5) -/

/-- C5: for every key that `SplitMetaNamespaceKey` rejects, `Reconcile` returns
nil and makes no call at all: no lister lookup, no `CreateOrUpdate`, no
`Delete`, no `UpdateStatus`, no event; the world is left as it was. -/
theorem Reconcile_malformed_key {σ : Type} (r : reconciler σ) (key : String) (w : σ)
    (hkey : SplitMetaNamespaceKey key = none) :
    (Reconcile r key w).err = none ∧ (Reconcile r key w).calls = [] ∧
      (Reconcile r key w).world = w := by
  simp [Reconcile, hkey]

/-- C5, at the key "a/b/c". -/
theorem Reconcile_malformed_key_witness :
    SplitMetaNamespaceKey "a/b/c" = none ∧
      ((Reconcile scripted "a/b/c" (Script.mk [Except.ok freshMetric] none none [])).err = none ∧
       (Reconcile scripted "a/b/c" (Script.mk [Except.ok freshMetric] none none [])).calls = [] ∧
       (Reconcile scripted "a/b/c" (Script.mk [Except.ok freshMetric] none none [])).world =
         Script.mk [Except.ok freshMetric] none none []) :=
  ⟨by decide, Reconcile_malformed_key scripted "a/b/c" _
    (SplitMetaNamespaceKey_of_many "a/b/c" (by decide))⟩

/-! ## Namespace and name of the calls (C6) -/

/-- C6: for every key "ns/name" and every object the lister returns for it,
every call of the pass that takes a namespace and a name (the lookup,
`Delete`, the re-read inside `updateStatus` and the `UpdateStatus` write) is
made with ns and name.  The lister is any one that, like the namespaced
lister of lines 61 and 105, returns for a lookup only an object held under the
namespace and name asked for; `SetDefaults` leaves namespace and name as they
are.  Whatever the lister and the defaulting do, the first call is the lookup
of (ns, name) and a `Delete`, when made, is `Delete ns name`. -/
theorem Reconcile_targets {σ : Type} (r : reconciler σ) (ns name : String) (w : σ)
    (hns : '/' ∉ ns.toList) (hname : '/' ∉ name.toList) :
    (Reconcile r (ns ++ "/" ++ name) w).calls.head? = some (Call.Get ns name) ∧
      (∀ c ∈ (Reconcile r (ns ++ "/" ++ name) w).calls,
        c.isDelete = true → c = Call.Delete ns name) ∧
      ((∀ (ns0 name0 : String) (w0 w1 : σ) (o : Metric),
          r.Get ns0 name0 w0 = (Except.ok o, w1) → o.Namespace = ns0 ∧ o.Name = name0) →
        (∀ m : Metric, (r.SetDefaults m).Namespace = m.Namespace ∧
          (r.SetDefaults m).Name = m.Name) →
        ∀ c ∈ (Reconcile r (ns ++ "/" ++ name) w).calls,
          ∀ t, c.target = some t → t = (ns, name)) := by
  have hkey := SplitMetaNamespaceKey_of_form ns name hns hname
  rcases hg : r.Get ns name w with ⟨res, w1⟩
  cases res with
  | error e =>
    cases hnf : IsNotFound (some e)
    · have hcalls : (Reconcile r (ns ++ "/" ++ name) w).calls = [Call.Get ns name] := by
        simp [Reconcile, hkey, hg, hnf]
      rw [hcalls]
      simp [Call.isDelete, Call.target]
    · have hcalls : (Reconcile r (ns ++ "/" ++ name) w).calls =
          [Call.Get ns name, Call.Delete ns name] := by
        rcases hd : r.Delete ns name w1 with ⟨dErr, w2⟩
        simp [Reconcile, hkey, hg, hnf, hd]
      rw [hcalls]
      simp [Call.isDelete, Call.target]
  | ok original =>
    have hcs := computeStatus_targets r original w1
    have hcalls : ∃ rest, (Reconcile r (ns ++ "/" ++ name) w).calls =
        Call.Get ns name :: ((computeStatus r original w1).calls ++ rest) ∧
        (∀ c ∈ rest, c.isDelete = false) ∧
        ∀ c ∈ rest, c ∈ (updateStatus r (computeStatus r original w1).val.2
          (computeStatus r original w1).world).calls ∨ c.target = none := by
      have hud : ∀ c ∈ (updateStatus r (computeStatus r original w1).val.2
          (computeStatus r original w1).world).calls, c.isDelete = false := by
        intro c hc
        rcases hg2 : (r.Get (computeStatus r original w1).val.2.Namespace
          (computeStatus r original w1).val.2.Name (computeStatus r original w1).world).1
          with e | ex
        · rw [updateStatus_reread_error r _ _ e hg2] at hc
          simp only [List.mem_singleton] at hc
          subst hc
          rfl
        · cases heq : DeepEqual ex.Status (computeStatus r original w1).val.2.Status
          · rw [updateStatus_reread_differs r _ ex _ hg2 heq] at hc
            simp only [List.mem_cons, List.mem_singleton, List.mem_nil_iff, or_false] at hc
            rcases hc with hc | hc <;> subst hc <;> rfl
          · rw [updateStatus_reread_equal r _ ex _ hg2 heq] at hc
            simp only [List.mem_singleton] at hc
            subst hc
            rfl
      rw [Reconcile_found r _ ns name w w1 original hkey hg]
      split
      · split
        · refine ⟨_, by simp only [List.append_assoc]; rfl, ?_, ?_⟩
          · intro c hc
            rcases List.mem_append.mp hc with h | h
            · exact hud c h
            · simp only [List.mem_singleton] at h
              subst h
              rfl
          · intro c hc
            rcases List.mem_append.mp hc with h | h
            · exact Or.inl h
            · simp only [List.mem_singleton] at h
              subst h
              exact Or.inr rfl
        · refine ⟨_, by simp only [List.append_assoc]; rfl, ?_, ?_⟩
          · intro c hc
            rcases List.mem_append.mp hc with h | h
            · exact hud c h
            · simp only [List.mem_singleton] at h
              subst h
              rfl
          · intro c hc
            rcases List.mem_append.mp hc with h | h
            · exact Or.inl h
            · simp only [List.mem_singleton] at h
              subst h
              exact Or.inr rfl
      · exact ⟨[], by simp, by simp, by simp⟩
    obtain ⟨rest, hcalls, hrestDel, hrest⟩ := hcalls
    have hcDel : ∀ c ∈ (computeStatus r original w1).calls, c.isDelete = false := by
      rw [computeStatus_calls]
      cases (r.CreateOrUpdate (workingCopy r original) w1).1 <;> simp [Call.isDelete]
    rw [hcalls]
    refine ⟨rfl, ?_, ?_⟩
    · intro c hc hdel
      simp only [List.mem_cons, List.mem_append] at hc
      rcases hc with hc | hc | hc
      · subst hc
        simp [Call.isDelete] at hdel
      · rw [hcDel c hc] at hdel
        exact absurd hdel (by simp)
      · rw [hrestDel c hc] at hdel
        exact absurd hdel (by simp)
    · intro hReader hDef c hc t ht
      have horig := hReader _ _ _ _ _ hg
      have hident := computeStatus_identity r original w1
      simp only [List.mem_cons, List.mem_append] at hc
      rcases hc with hc | hc | hc
      · subst hc
        simpa [Call.target] using ht.symm
      · rw [hcs c hc] at ht
        exact absurd ht (by simp)
      · rcases hrest c hc with h | h
        · have := updateStatus_targets r _ _ hReader c h t ht
          rw [this, hident.1, hident.2, (hDef original).1, (hDef original).2, horig.1, horig.2]
        · rw [h] at ht
          exact absurd ht (by simp)

/-- C6, at the key "ns/name" in a `Cluster` whose object has no status yet:
lookup, re-read and write all go to (ns, name). -/
theorem Reconcile_targets_witness :
    '/' ∉ "ns".toList ∧ '/' ∉ "name".toList ∧
      (Reconcile (cluster none) "ns/name" (Cluster.mk { Conditions := none } [])).calls.map
          Call.target =
        [some ("ns", "name"), none, some ("ns", "name"), some ("ns", "name"), none] ∧
      ∀ c ∈ (Reconcile (cluster none) "ns/name" (Cluster.mk { Conditions := none } [])).calls,
        ∀ t, c.target = some t → t = ("ns", "name") :=
  ⟨by decide, by decide, by decide,
    (Reconcile_targets (cluster none) "ns" "name" (Cluster.mk { Conditions := none } [])
      (by decide) (by decide)).2.2 (cluster_reader none) (fun _ => ⟨rfl, rfl⟩)⟩

/-! ## Failed re-read (C7) -/

/-- C7: for every desired Metric, when the re-read inside `updateStatus` fails
(with not-found or any other error), `updateStatus` returns exactly that
error, and the re-read is the only call it makes: it is made once and no
`UpdateStatus` follows. -/
theorem updateStatus_reread_fails {σ : Type} (r : reconciler σ) (m : Metric) (w : σ)
    (e : GoError)
    (hget : (r.Get m.Namespace m.Name w).1 = Except.error e) :
    (updateStatus r m w).val = some e ∧
      (updateStatus r m w).calls = [Call.Get m.Namespace m.Name] := by
  rw [updateStatus_reread_error r m w e hget]
  exact ⟨rfl, rfl⟩

/-- C7, at the ready working copy with a lister from which the object is gone. -/
theorem updateStatus_reread_fails_witness :
    (updateStatus scripted readyMetric (Script.mk [Except.error notFoundError] none none [])).val
        = some notFoundError ∧
      (updateStatus scripted readyMetric
        (Script.mk [Except.error notFoundError] none none [])).calls
        = [Call.Get "ns" "name"] :=
  updateStatus_reread_fails scripted readyMetric
    (Script.mk [Except.error notFoundError] none none []) notFoundError rfl

/-! ## Failed lookup (C8) -/

/-- C8: for every key that splits into (ns, name), when the lister answers
with an error that is not not-found, `Reconcile` returns that error wrapped
with the message "failed to fetch metric <key>" (so a non-nil error whose text
is "failed to fetch metric <key>: <text of the lister error>"), and the lookup
is the only call of the pass: no `CreateOrUpdate`, no `Delete`, no
`UpdateStatus`, no event. -/
theorem Reconcile_read_failure {σ : Type} (r : reconciler σ) (key ns name : String)
    (w : σ) (e : GoError)
    (hkey : SplitMetaNamespaceKey key = some (ns, name))
    (hget : (r.Get ns name w).1 = Except.error e)
    (hnf : IsNotFound (some e) = false) :
    (Reconcile r key w).err = some (GoError.withMessage e ("failed to fetch metric " ++ key)) ∧
      (Reconcile r key w).err.map GoError.Error =
        some ("failed to fetch metric " ++ key ++ ": " ++ e.Error) ∧
      (Reconcile r key w).calls = [Call.Get ns name] := by
  rcases hg : r.Get ns name w with ⟨res, w1⟩
  rw [hg] at hget
  simp only at hget
  subst hget
  simp [Reconcile, hkey, hg, hnf, Wrap, GoError.Error]

/-- C8, at the key "ns/name" with a lister that times out. -/
theorem Reconcile_read_failure_witness :
    SplitMetaNamespaceKey "ns/name" = some ("ns", "name") ∧
      IsNotFound (some serverTimeout) = false ∧
      (Reconcile scripted "ns/name"
        (Script.mk [Except.error serverTimeout] none none [])).err.map GoError.Error
        = some "failed to fetch metric ns/name: etcd: request timed out" ∧
      (Reconcile scripted "ns/name" (Script.mk [Except.error serverTimeout] none none [])).calls
        = [Call.Get "ns" "name"] :=
  have h := Reconcile_read_failure scripted "ns/name" "ns" "name"
    (Script.mk [Except.error serverTimeout] none none []) serverTimeout (by decide) rfl rfl
  ⟨by decide, rfl, h.2.1, h.2.2⟩

/-! ## Changed status (C9) -/

/-- C9: for every found object whose computed status differs from the status
as read, `Reconcile` records exactly one of the events "UpdateFailed" and
"Updated".  When `updateStatus` returns an error, that error is what
`Reconcile` returns (whatever the collection step did), one "UpdateFailed"
warning carrying it is recorded and no "Updated".  When `updateStatus`
returns nil, `Reconcile` returns the result of the collection step, which is
nil exactly when `CreateOrUpdate` returned nil, one normal "Updated" event is
recorded and no "UpdateFailed". -/
theorem Reconcile_status_changed {σ : Type} (r : reconciler σ) (key ns name : String)
    (w w1 : σ) (original : Metric)
    (hkey : SplitMetaNamespaceKey key = some (ns, name))
    (hget : r.Get ns name w = (Except.ok original, w1))
    (hne : DeepEqual original.Status (computeStatus r original w1).val.2.Status = false) :
    (∀ uErr : GoError,
        (updateStatus r (computeStatus r original w1).val.2
          (computeStatus r original w1).world).val = some uErr →
        (Reconcile r key w).err = some uErr ∧
        (Reconcile r key w).calls.filter (Call.isEvent "UpdateFailed") =
          [Call.Event (computeStatus r original w1).val.2 EventTypeWarning "UpdateFailed"
            ("Failed to update metric status: " ++ uErr.Error)] ∧
        (Reconcile r key w).calls.filter (Call.isEvent "Updated") = []) ∧
      ((updateStatus r (computeStatus r original w1).val.2
          (computeStatus r original w1).world).val = none →
        (Reconcile r key w).err = (reconcileCollection r (workingCopy r original) w1).val.1 ∧
        ((Reconcile r key w).err = none ↔
          (r.CreateOrUpdate (workingCopy r original) w1).1 = none) ∧
        (Reconcile r key w).calls.filter (Call.isEvent "Updated") =
          [Call.Event (computeStatus r original w1).val.2 EventTypeNormal "Updated"
            ("Successfully updated metric status " ++ key)] ∧
        (Reconcile r key w).calls.filter (Call.isEvent "UpdateFailed") = []) := by
  have hc := computeStatus_calls_filter r original w1
  have hu := updateStatus_calls_filter r (computeStatus r original w1).val.2
    (computeStatus r original w1).world
  rw [Reconcile_found r key ns name w w1 original hkey hget]
  simp only [hne, Bool.not_false, if_true]
  constructor
  · intro uErr hval
    simp only [hval]
    refine ⟨trivial, ?_, ?_⟩
    · simp [List.filter_cons, List.filter_append, Call.isEvent, hc.2.2.2, hu "UpdateFailed"]
    · simp [List.filter_cons, List.filter_append, Call.isEvent, hc.2.2.1, hu "Updated"]
  · intro hval
    simp only [hval]
    refine ⟨computeStatus_err r original _, ?_, ?_, ?_⟩
    · rw [computeStatus_err]
      rcases hcu : r.CreateOrUpdate (workingCopy r original) w1 with ⟨res, w2⟩
      cases res <;> simp [reconcileCollection, hcu, Wrap]
    · simp [List.filter_cons, List.filter_append, Call.isEvent, hc.2.2.1, hu "Updated"]
    · simp [List.filter_cons, List.filter_append, Call.isEvent, hc.2.2.2, hu "UpdateFailed"]

/-- C9, at a fresh object whose collection fails and whose status write is
refused: the error returned is that of the write, not that of the collection,
and the one status event is "UpdateFailed". -/
theorem Reconcile_status_changed_witness :
    (Reconcile scripted "ns/name"
        (Script.mk [Except.ok freshMetric, Except.ok freshMetric] (some serverTimeout) none
          [some (GoError.status false "conflict")])).err
        = some (GoError.status false "conflict") ∧
      (Reconcile scripted "ns/name"
        (Script.mk [Except.ok freshMetric, Except.ok freshMetric] (some serverTimeout) none
          [some (GoError.status false "conflict")])).calls.filter (Call.isEvent "UpdateFailed")
        = [Call.Event failedMetric EventTypeWarning "UpdateFailed"
            "Failed to update metric status: conflict"] ∧
      (Reconcile scripted "ns/name"
        (Script.mk [Except.ok freshMetric, Except.ok freshMetric] (some serverTimeout) none
          [some (GoError.status false "conflict")])).calls.filter (Call.isEvent "Updated")
        = [] :=
  (Reconcile_status_changed scripted "ns/name" "ns" "name"
    (Script.mk [Except.ok freshMetric, Except.ok freshMetric] (some serverTimeout) none
      [some (GoError.status false "conflict")])
    (Script.mk [Except.ok freshMetric] (some serverTimeout) none
      [some (GoError.status false "conflict")])
    freshMetric (by decide) rfl (by decide)).1 (GoError.status false "conflict") rfl

/-! ## The status write (C10) -/

/-- C10: for every desired Metric `m` whose re-read inside `updateStatus`
gives `ex`: when the status of `ex` is deep-equal to that of `m`, the re-read
is the only call and nil is returned; otherwise the re-read is followed by
exactly one `UpdateStatus`, in the namespace of `ex`, of the object `ex` with
only its status replaced by that of `m` (name, namespace, metadata and spec
are those of `ex`, not of `m`), and the error of that call is returned. -/
theorem updateStatus_reread_succeeds {σ : Type} (r : reconciler σ) (m ex : Metric) (w : σ)
    (hget : (r.Get m.Namespace m.Name w).1 = Except.ok ex) :
    (updateStatus r m w).val =
        (if DeepEqual ex.Status m.Status then none
         else (r.UpdateStatus ex.Namespace { ex with Status := m.Status }
                (r.Get m.Namespace m.Name w).2).1) ∧
      (updateStatus r m w).calls =
        (if DeepEqual ex.Status m.Status then [Call.Get m.Namespace m.Name]
         else [Call.Get m.Namespace m.Name,
               Call.UpdateStatus ex.Namespace
                 { Namespace := ex.Namespace, Name := ex.Name, Labels := ex.Labels,
                   Spec := ex.Spec, Status := m.Status }]) := by
  cases heq : DeepEqual ex.Status m.Status
  · rw [updateStatus_reread_differs r m ex w hget heq]
    simp
  · rw [updateStatus_reread_equal r m ex w hget heq]
    simp

/-- C10, at the ready working copy when the store holds the relabelled object
marked failed and the write is refused: the object written is the stored one
with the status of the working copy. -/
theorem updateStatus_reread_succeeds_witness :
    (updateStatus scripted readyMetric
        (Script.mk [Except.ok staleMetric] none none [some serverTimeout])).val
        = some serverTimeout ∧
      (updateStatus scripted readyMetric
        (Script.mk [Except.ok staleMetric] none none [some serverTimeout])).calls
        = [Call.Get "ns" "name",
           Call.UpdateStatus "ns"
             { Namespace := "ns", Name := "name", Labels := [("app", "api")],
               Spec := { ScrapeTarget := "svc-v2" },
               Status := { Conditions := some Condition.Ready } }] :=
  updateStatus_reread_succeeds scripted readyMetric staleMetric
    (Script.mk [Except.ok staleMetric] none none [some serverTimeout]) rfl

end MetricReconciler
